import Mathlib

/-!
Shallow embedding of the godef definition-resolution core (godef.go).

Positions (`token.Pos`) are modelled directly as byte offsets into the
principal file (`Int`), so `FileSet.Position(p).Offset = p` and position
differences coincide with offset differences.  The external collaborators
(the rogpeppe parser and type inference engine, `strconv.Unquote`,
`build.Default.Import`, the pretty printer) are modelled as function-valued
parameters collected in `Collab`: the spec names them as external
capabilities whose code is not part of the core.
-/

namespace Godef

/-- `Position` record (godef.go lines 277-281), with `json:",omitempty"`
tags on every field. -/
structure Position where
  filename : String
  line : Int
  column : Int
deriving DecidableEq, Repr

/-- Output result kinds (godef.go lines 283-294). -/
inductive Kind where
  | bad
  | func
  | var
  | importKind
  | const
  | label
  | typeKind
  | path
deriving DecidableEq, Repr

/-- The string each `Kind` constant denotes in the source. -/
def Kind.str : Kind → String
  | .bad => "bad"
  | .func => "func"
  | .var => "var"
  | .importKind => "import"
  | .const => "const"
  | .label => "label"
  | .typeKind => "type"
  | .path => "path"

/-- Object kinds of the legacy ast package (`ast.ObjKind`): Bad, Pkg, Con,
Typ, Var, Fun, Lbl. -/
inductive AstKind where
  | bad
  | pkg
  | con
  | typ
  | var
  | fn
  | lbl
deriving DecidableEq, Repr

/-- Rendered static type returned by the inference engine (`types.Type`),
kept opaque: `none` is the zero value `types.Type{}`. -/
structure TypesType where
  repr : Option String
deriving DecidableEq, Repr

/-- The zero value `types.Type{}`. -/
def TypesType.zero : TypesType := ⟨none⟩

/-- The fields of `*ast.Object` that the core reads or builds: the kind,
the declared name, the `Data` payload (the package directory for the
result `&ast.Object\x7bKind: ast.Pkg, Data: pkg.Dir\x7d` of resolving
an import specifier) and the declaration position. -/
structure AstObject where
  kind : AstKind
  name : String
  data : Option String
  position : Position
deriving DecidableEq, Repr

/-- The command-line state of `Application` that the resolution and
printing code reads (godef.go lines 32-48); `expr` is the zeroth command
line argument. -/
structure Application where
  offset : Int
  type : Bool
  members : Bool
  all : Bool
  json : Bool
  filename : String
  expr : String
deriving DecidableEq, Repr

/-- `(app *Application) prepare` (godef.go lines 67-70): first
`Members = Members || All`, then `Type = Type || Members` with the already
updated `Members`. -/
def Application.prepare (app : Application) : Application :=
  let app1 := { app with members := app.members || app.all }
  { app1 with type := app1.type || app1.members }

mutual
/-- The AST node shapes that `findIdentifier`'s visitor distinguishes
(godef.go lines 221-263).  `ident` carries `NamePos` and `Name`
(`End = NamePos + len(Name)`); `sel` is a `SelectorExpr` whose `Sel` token
carries `selPos`/`selName` (the expression's `End` is the `Sel` end);
`importSpec` carries `Pos()`/`End()` and the raw path literal;
`star` is a `StarExpr`; `structType` carries its span and field list; all
remaining node kinds fall into `other`, whose flag records whether the Go
type implements `ast.Expr` (the `case ast.Expr` of the resolver's switch). -/
inductive Node where
  | ident (namePos : Int) (name : String)
  | sel (x : Node) (selPos : Int) (selName : String)
  | importSpec (pos endPos : Int) (pathLit : String)
  | star (pos : Int) (x : Node)
  | structType (pos endPos : Int) (fields : FieldList)
  | other (isExprNode : Bool) (children : NodeList)

/-- Children of a generic node in `ast.Walk` order. -/
inductive NodeList where
  | nil
  | cons (n : Node) (ns : NodeList)

/-- A struct field list: each field has its name identifiers
(`(NamePos, Name)` pairs; the empty list models `Names == nil`, an
anonymous field) and its type expression.  `ast.Walk` visits, per field,
the name identifiers then the type. -/
inductive FieldList where
  | nil
  | cons (names : List (Int × String)) (fieldType : Node) (fs : FieldList)
end

/-- Whether the node's Go type implements `ast.Expr` (selects the
`case ast.Expr` branch of `oldGodef`'s switch). -/
def Node.isExprKind : Node → Bool
  | .ident _ _ => true
  | .sel _ _ _ => true
  | .star _ _ => true
  | .structType _ _ _ => true
  | .importSpec _ _ _ => false
  | .other isExprNode _ => isExprNode

/-- The one-level `StarExpr` strip in the anonymous-field check
(`if pt, ok := field.Type.(*ast.StarExpr); ok \x7b t = pt.X \x7d`). -/
def stripStar : Node → Node
  | .star _ x => x
  | n => n

/-- The anonymous-field test of the `StructType` case: fires only when
`field.Names == nil` and the (star-stripped) field type is an identifier,
yielding that identifier's `NamePos` and `Name`. -/
def anonIdent (names : List (Int × String)) (fieldType : Node) : Option (Int × String) :=
  match names with
  | [] =>
    match stripStar fieldType with
    | .ident ip iname => some (ip, iname)
    | _ => none
  | _ :: _ => none

/-- The closure `found` of `findIdentifier` (godef.go lines 216-220):
`start := FileSet.Position(startPos).Offset`,
`end := start + int(endPos-startPos)`,
`return start <= searchpos && searchpos <= end` — inclusive on both ends.
Positions are byte offsets here, so `start = startPos`. -/
def found (searchpos startPos endPos : Int) : Bool :=
  let start := startPos
  let e := start + (endPos - startPos)
  decide (start ≤ searchpos) && decide (searchpos ≤ e)

/-- `nodeResult` (godef.go lines 201-204): either a located node or the
error of the anonymous-field re-parse. -/
inductive FoundResult where
  | node (n : Node)
  | err (e : String)

/-- Packs a `parseExpr` outcome into the `nodeResult\x7bexpr, err\x7d`
sent on the channel by the struct-type case. -/
def mkFR : Except String Node → FoundResult
  | .ok n => .node n
  | .error e => .err e

/-- The `for _, field := range n.Fields.List` loop of the `StructType`
case (godef.go lines 240-255): the first anonymous ident-typed field whose
identifier span contains the offset, returning that identifier's name
(which the code then re-parses). -/
def anonHit (sp : Int) : FieldList → Option String
  | .nil => none
  | .cons names fieldType fs =>
    match anonIdent names fieldType with
    | some (ip, iname) =>
      if found sp ip (ip + (iname.utf8ByteSize : Int)) then some iname else anonHit sp fs
    | none => anonHit sp fs

/-- Visiting a field's name identifiers in order: each is an `*ast.Ident`
tested by the generic identifier rule. -/
def walkIdents (sp : Int) : List (Int × String) → Option FoundResult
  | [] => none
  | (p, s) :: rest =>
    if found sp p (p + (s.utf8ByteSize : Int)) then some (.node (.ident p s))
    else walkIdents sp rest

mutual
/-- The visitor of `findIdentifier` (godef.go lines 221-263) composed with
`ast.Walk`'s depth-first traversal, with the channel-send-and-`Goexit`
short-circuit modelled as returning `some` result:
  * `Ident`: test `found(NamePos, End())`;
  * `SelectorExpr`: test `found(Sel.NamePos, End())` and on a match return
    the whole selector expression; otherwise walk `X` then `Sel`;
  * `ImportSpec`: test `found(Pos(), End())` (its children — the path
    literal and optional name — lie inside that span and are never tested
    separately here since they could only be reached on a failed test);
  * `StructType`: run the anonymous-field loop first; on a hit send the
    `parseExpr` outcome; otherwise continue into the field list;
  * everything else: continue into the children. -/
def walkNode (pe : String → Except String Node) (sp : Int) : Node → Option FoundResult
  | .ident p s =>
    if found sp p (p + (s.utf8ByteSize : Int)) then some (.node (.ident p s)) else none
  | .sel x p s =>
    if found sp p (p + (s.utf8ByteSize : Int)) then some (.node (.sel x p s))
    else
      match walkNode pe sp x with
      | some r => some r
      | none =>
        if found sp p (p + (s.utf8ByteSize : Int)) then some (.node (.ident p s)) else none
  | .importSpec pos endPos lit =>
    if found sp pos endPos then some (.node (.importSpec pos endPos lit)) else none
  | .star _ x => walkNode pe sp x
  | .structType _ _ fields =>
    match anonHit sp fields with
    | some iname => some (mkFR (pe iname))
    | none => walkFields pe sp fields
  | .other _ children => walkList pe sp children

/-- `ast.Walk` over a child list, stopping at the first produced result. -/
def walkList (pe : String → Except String Node) (sp : Int) : NodeList → Option FoundResult
  | .nil => none
  | .cons n ns =>
    match walkNode pe sp n with
    | some r => some r
    | none => walkList pe sp ns

/-- `ast.Walk` over a struct's fields: per field the name identifiers,
then the field type, then the remaining fields. -/
def walkFields (pe : String → Except String Node) (sp : Int) : FieldList → Option FoundResult
  | .nil => none
  | .cons names fieldType fs =>
    match walkIdents sp names with
    | some r => some r
    | none =>
      match walkNode pe sp fieldType with
      | some r => some r
      | none => walkFields pe sp fs
end

/-- `findIdentifier` (godef.go lines 214-275): run the traversal; a
received error is returned as-is, a received node is the answer, and an
exhausted traversal (`ev.node == nil`) yields the "no identifier found"
error.  `pe` is `parseExpr` specialised to the file's scope. -/
def findIdentifier (pe : String → Except String Node) (f : Node) (searchpos : Int) :
    Except String Node :=
  match walkNode pe searchpos f with
  | some (.err e) => .error e
  | some (.node n) => .ok n
  | none => .error "no identifier found"

/-- A minimal model of `%q` on the raw path literal: Go-style double
quoting, escaping only quote and backslash (enough for every literal the
claims touch). -/
def goQuoteChar (c : Char) : String :=
  if c = '"' then "\\\""
  else if c = '\\' then "\\\\"
  else String.singleton c

/-- `%q` rendering of a string. -/
def goQuote (s : String) : String :=
  "\"" ++ String.join (s.toList.map goQuoteChar) ++ "\""

/-- The external collaborators of `oldGodef`, as the spec's external
capabilities.  `rawParseLocal`/`rawParseMerged` model
`parser.ParseExpr(FileSet, "<arg>", expr, f.Scope, ...)` before and after
`parseLocalPackage` has merged sibling declarations into the (mutable)
file scope; `exprTypeLocal`/`exprTypeMerged` model
`types.ExprType(e, types.DefaultImporter, types.FileSet)` in those two
states; `unquote` is `strconv.Unquote`; `findDir` is
`build.Default.Import(path, dir, build.FindOnly)` yielding `pkg.Dir`;
`pretty` is the `pretty\x7be\x7d` renderer; `parseErrMsg` the message of a
failed principal-file parse. -/
structure Collab where
  parseErrMsg : String
  rawParseLocal : String → Except String Node
  rawParseMerged : String → Except String Node
  exprTypeLocal : Node → Option (AstObject × TypesType)
  exprTypeMerged : Node → Option (AstObject × TypesType)
  unquote : String → Option String
  findDir : String → Except String String
  pretty : Node → String

/-- `parseExpr` (godef.go lines 381-391) over a raw-parser capability:
wrap a parser failure as "cannot parse expression:", keep `Ident` and
`SelectorExpr` results, reject everything else with
"no identifier found in expression". -/
def parseExpr (raw : String → Except String Node) (expr : String) : Except String Node :=
  match raw expr with
  | .error e => .error ("cannot parse expression: " ++ e)
  | .ok n =>
    match n with
    | .ident p s => .ok (.ident p s)
    | .sel x p s => .ok (.sel x p s)
    | _ => .error "no identifier found in expression"

/-- `importPath` (godef.go lines 193-199): unquote the import path
literal, failing with the invalid-string-literal error exactly when
`strconv.Unquote` fails. -/
def importPath (unquote : String → Option String) (pathLit : String) : Except String String :=
  match unquote pathLit with
  | none => .error ("invalid string literal " ++ goQuote pathLit ++ " in ast.ImportSpec")
  | some p => .ok p

/-- The package tier of `oldGodef` (godef.go lines 172-188): aggregate the
local package (`parseLocalPackage`'s object result is only used for a
debug print; its effect of merging sibling declarations into the file
scope is reflected by the `Merged` collaborators), re-parse an
expression-based query against the enriched scope, recompute the
declaring object, and fail with "no declaration found" when it is nil. -/
def resolveExprTier2 (c : Collab) (app : Application) (e : Node) :
    Except String (Option AstObject × TypesType) :=
  match (if app.expr ≠ "" then parseExpr c.rawParseMerged app.expr else .ok e) with
  | .error err => .error err
  | .ok e2 =>
    match c.exprTypeMerged e2 with
    | some (obj, typ) => .ok (some obj, typ)
    | none => .error ("no declaration found for " ++ c.pretty e2)

/-- The `switch e := o.(type)` of `oldGodef` (godef.go lines 154-190) on
the located node: the `*ast.ImportSpec` special case resolves the import
path to an on-disk directory and returns
`&ast.Object\x7bKind: ast.Pkg, Data: pkg.Dir\x7d` with the zero type; the
`ast.Expr` case runs the two-tier strategy, trying local declarations
only (`!app.Type` guard) before the package tier; a node of any other
kind falls through to `return nil, types.Type\x7b\x7d, nil`. -/
def resolveNode (c : Collab) (app : Application) (o : Node) :
    Except String (Option AstObject × TypesType) :=
  if o.isExprKind = false then
    match o with
    | .importSpec _ _ lit =>
      match importPath c.unquote lit with
      | .error e => .error e
      | .ok path =>
        match c.findDir path with
        | .error e => .error ("error finding import path for " ++ path ++ ": " ++ e)
        | .ok dir => .ok (some ⟨AstKind.pkg, "", some dir, ⟨"", 0, 0⟩⟩, TypesType.zero)
    | _ => .ok (none, TypesType.zero)
  else
    if app.type = false then
      match c.exprTypeLocal o with
      | some (obj, typ) => .ok (some obj, typ)
      | none => resolveExprTier2 c app o
    else resolveExprTier2 c app o

/-- `oldGodef` (godef.go lines 130-191).  `parsed` is the outcome of
`parser.ParseFile` on the principal file (`none` iff `f == nil`); the
query dispatch tries a non-empty expression first, then a non-negative
offset, and otherwise fails with "no expression or offset specified";
the located node is then resolved by `resolveNode`. -/
def oldGodef (c : Collab) (app : Application) (parsed : Option Node) (searchpos : Int) :
    Except String (Option AstObject × TypesType) :=
  match parsed with
  | none => .error ("cannot parse " ++ app.filename ++ ": " ++ c.parseErrMsg)
  | some f =>
    match
      (if app.expr ≠ "" then parseExpr c.rawParseLocal app.expr
       else if searchpos ≥ 0 then findIdentifier (parseExpr c.rawParseLocal) f searchpos
       else .error "no expression or offset specified") with
    | .error e => .error e
    | .ok o => resolveNode c app o

/-- `hasSuffix` (godef.go lines 455-457). -/
def hasSuffix (s suff : String) : Bool :=
  decide (suff.length ≤ s.length) && decide (s.drop (s.length - suff.length) = suff)

/-- The message of `errNoPkgFiles = errors.New("no more package files found")`. -/
def errNoPkgFiles : String := "no more package files found"

/-- The directory side of `parseLocalPackage`, as an oracle keyed by the
directory entry name: whether `os.Open(d)` and `Readdirnames` succeed,
the entries returned, the result of `pkgName(filepath.Join(d, pf))` (the
empty string when the package-clause parse yields no file), and whether
the full `parser.ParseFile` of the sibling succeeds. -/
structure DirFS where
  openOk : Bool
  readOk : Bool
  names : List String
  pkgNameOf : String → String
  parseOk : String → Bool

/-- The `for _, pf := range list` loop of `parseLocalPackage` (godef.go
lines 426-437): a directory entry is skipped (`continue`) when it does
not end in ".go", is the principal file itself (`pf == f`), or implements
a different package name; otherwise it is fully parsed and added to the
package's file set only when the parse succeeds (`err == nil`), a failed
sibling being dropped silently while the loop moves on. -/
def scanSiblings (fs : DirFS) (f pkgNm : String) : List String → List String
  | [] => []
  | pf :: rest =>
    if !hasSuffix pf ".go" || pf = f || fs.pkgNameOf pf ≠ pkgNm then
      scanSiblings fs f pkgNm rest
    else if fs.parseOk pf then pf :: scanSiblings fs f pkgNm rest
    else scanSiblings fs f pkgNm rest

/-- `parseLocalPackage` (godef.go lines 409-442) over the `DirFS` oracle.
`filename` is the principal file's path (pre-seeded into `pkg.Files`),
`f` its base name from `filepath.Split`, `pkgNm` the principal file's
package name `src.Name.Name`.  The package's file set is the principal
file plus the surviving siblings; if after the scan it still holds only
the principal file (`len(pkg.Files) == 1`), the result is
`errNoPkgFiles`, also returned when the directory cannot be opened or
listed. -/
def parseLocalPackage (fs : DirFS) (filename f pkgNm : String) :
    Except String (List String) :=
  if fs.openOk = false then .error errNoPkgFiles
  else if fs.readOk = false then .error errNoPkgFiles
  else if (filename :: scanSiblings fs f pkgNm fs.names).length = 1 then
    .error errNoPkgFiles
  else .ok (filename :: scanSiblings fs f pkgNm fs.names)

/-- `ast.IsExported(name)`: the first rune is upper case (false on the
empty string, whose decode yields the non-upper replacement rune). -/
def isExported (s : String) : Bool :=
  decide (s ≠ "") && s.front.isUpper

/-- One lower-case hexadecimal digit. -/
def hexDigit (n : Nat) : String :=
  String.singleton (if n < 10 then Char.ofNat (48 + n) else Char.ofNat (87 + n))

/-- Go `encoding/json` escaping of one character inside a quoted string
(HTML escaping on, as under plain `json.Marshal`). -/
def jsonEscapeChar (c : Char) : String :=
  if c = '"' then "\\\""
  else if c = '\\' then "\\\\"
  else if c = '\n' then "\\n"
  else if c = '\r' then "\\r"
  else if c = '\t' then "\\t"
  else if c = '<' then "\\u003c"
  else if c = '>' then "\\u003e"
  else if c = '&' then "\\u0026"
  else if c.toNat < 32 then "\\u00" ++ hexDigit (c.toNat / 16) ++ hexDigit (c.toNat % 16)
  else if c.toNat = 8232 then "\\u2028"
  else if c.toNat = 8233 then "\\u2029"
  else String.singleton c

/-- Go `encoding/json` quoting of a string value. -/
def jsonQuote (s : String) : String :=
  "\"" ++ String.join (s.toList.map jsonEscapeChar) ++ "\""

/-- `json.Marshal` of a `Position` (godef.go lines 277-281): the fixed
field order filename, line, column, each carrying `omitempty` and so
dropped when it equals its zero value. -/
def Position.json (p : Position) : String :=
  let fieldStrs :=
    (if p.filename = "" then [] else ["\"filename\":" ++ jsonQuote p.filename]) ++
    (if p.line = 0 then [] else ["\"line\":" ++ toString p.line]) ++
    (if p.column = 0 then [] else ["\"column\":" ++ toString p.column])
  "\x7b" ++ String.intercalate "," fieldStrs ++ "\x7d"

/-- `(pos Position) Format` (godef.go lines 368-379), the `%v` rendering:
`filename:line:column`, `line:column`, bare `filename`, or `-`. -/
def Position.format (pos : Position) : String :=
  if pos.filename ≠ "" ∧ pos.line > 0 then
    pos.filename ++ ":" ++ toString pos.line ++ ":" ++ toString pos.column
  else if pos.line > 0 then toString pos.line ++ ":" ++ toString pos.column
  else if pos.filename ≠ "" then pos.filename
  else "-"

/-- The output `Object` (godef.go lines 296-304); `type?` and `value?`
keep the opaque `interface\x7b\x7d` fields as their already rendered
strings (`pretty\x7b...\x7d` output), `none` standing for `nil`. -/
inductive Object where
  | mk (name : String) (kind : Kind) (pkg : String) (position : Position)
       (members : List Object) (type? : Option String) (value? : Option String)

/-- Field accessor. -/
def Object.name : Object → String
  | .mk n _ _ _ _ _ _ => n

/-- Field accessor. -/
def Object.kind : Object → Kind
  | .mk _ k _ _ _ _ _ => k

/-- Field accessor. -/
def Object.pkg : Object → String
  | .mk _ _ p _ _ _ _ => p

/-- Field accessor. -/
def Object.position : Object → Position
  | .mk _ _ _ pos _ _ _ => pos

/-- Field accessor. -/
def Object.members : Object → List Object
  | .mk _ _ _ _ ms _ _ => ms

/-- Field accessor. -/
def Object.type? : Object → Option String
  | .mk _ _ _ _ _ t _ => t

/-- Field accessor. -/
def Object.value? : Object → Option String
  | .mk _ _ _ _ _ _ v => v

/-- `%v`/`%s` of the opaque `Value` field; `nil` prints as Go's verb
error for a nil operand. -/
def fmtV : Option String → String
  | some s => s
  | none => "%!s(<nil>)"

/-- `typeStr` (godef.go lines 344-366): the kind keyword is suppressed
for var and func, the import kind opens a parenthesis and closes it
around the value, every other kind prints `kind name`; the rendered type
follows after a space and the value after ` = ` (after a space and before
the closing parenthesis for the import kind). -/
def typeStr (o : Object) : String :=
  let parts : String × (String → String) :=
    match o.kind with
    | .var => ("", fun v => " = " ++ v)
    | .func => ("", fun v => " = " ++ v)
    | .importKind => (Kind.str .importKind ++ " (", fun v => " " ++ v ++ ")")
    | k => (Kind.str k ++ " ", fun v => " = " ++ v)
  parts.1 ++ o.name ++
    (match o.type? with | some t => " " ++ t | none => "") ++
    (match o.value? with | some v => parts.2 v | none => "")

/-- `(app *Application) print` (godef.go lines 312-342) collected into the
string written to `out`: a path-kind object prints its raw `Value` and a
newline only; otherwise JSON mode prints the marshalled `Position` and a
newline only; otherwise the `%v` position line, then — unless the kind is
bad or the type flag is off — the `typeStr` line, then, with the members
flag, each member not filtered by
`!app.All && (obj.Pkg != "" || !ast.IsExported(obj.Name))`,
as an indented `typeStr` (newlines re-indented) and its indented
position. -/
def printApp (app : Application) (obj : Object) : String :=
  if obj.kind = .path then fmtV obj.value? ++ "\n"
  else if app.json then Position.json obj.position ++ "\n"
  else
    let base := Position.format obj.position ++ "\n"
    if obj.kind = .bad ∨ app.type = false then base
    else
      let withType := base ++ typeStr obj ++ "\n"
      if app.members then
        withType ++ String.join (obj.members.map (fun m =>
          if !app.all && (decide (m.pkg ≠ "") || !isExported m.name) then ""
          else
            "\t" ++ (typeStr m).replace "\n" "\n\t\t" ++ "\n" ++
            "\t\t" ++ Position.format m.position ++ "\n"))
      else withType

/-- The `Kind` an `ast.ObjKind` maps to in the output model. -/
def kindOfAst : AstKind → Kind
  | .bad => .bad
  | .con => .const
  | .typ => .typeKind
  | .var => .var
  | .fn => .func
  | .lbl => .label
  | .pkg => .importKind

/-- Modelled from the spec: the bridge from the legacy resolver's
`(*ast.Object, types.Type)` to the output `Object` (the repository's
adapter for the legacy path is not under src/: `adaptGodef` hands the
legacy pair to a conversion whose code is absent, `adaptObject` being a
stub).  Spec 4.3: an import specifier yields "a `path`-kind Result whose
Value is that directory (no Position, no Type)" — the legacy marker for
that case is kind `Pkg` with the directory in `Data`; otherwise result
assembly copies the declaring object's kind, name, position, rendered
type and value. -/
def adaptResult (obj? : Option AstObject) (typ : TypesType) : Object :=
  match obj? with
  | none => .mk "" .bad "" ⟨"", 0, 0⟩ [] none none
  | some o =>
    match o.kind, o.data with
    | .pkg, some dir => .mk o.name .path "" ⟨"", 0, 0⟩ [] none (some dir)
    | k, d => .mk o.name (kindOfAst k) "" o.position [] typ.repr d

/-- The resolve-then-print pipeline: `oldGodef` followed by the adapter
and `print`, as run by `Application.Run` on a fixed input. -/
def runPipeline (c : Collab) (app : Application) (parsed : Option Node) (searchpos : Int) :
    Except String String :=
  match oldGodef c app parsed searchpos with
  | .error e => .error e
  | .ok (obj?, typ) => .ok (printApp app (adaptResult obj? typ))

/-!
Spec-side model of the locator, following the words of spec section 4.2:
"traverse the AST once, depth-first, testing each visited node's byte
span [start, start+length] against offset (inclusive on both ends)";
"the search must stop at the first matching node encountered in traversal
order and must not continue traversing siblings or descendants
afterward".  `specEvents` lists, in depth-first traversal order, every
span test the visitor performs together with the result it would send on
a match; the spec-side locator is then the first event whose span
contains the offset.
-/

/-- One span test of the traversal: the tested `[startPos, endPos]`
token span and the result sent on a match. -/
structure TestEvent where
  startPos : Int
  endPos : Int
  result : FoundResult

/-- The span tests contributed by a field's name identifiers. -/
def identEvents : List (Int × String) → List TestEvent
  | [] => []
  | (p, s) :: rest =>
    ⟨p, p + (s.utf8ByteSize : Int), .node (.ident p s)⟩ :: identEvents rest

/-- The span tests of the anonymous-field loop of a struct type: one per
anonymous ident-typed field, in field order, whose match result is the
re-parse of the identifier's text. -/
def anonEvents (pe : String → Except String Node) : FieldList → List TestEvent
  | .nil => []
  | .cons names fieldType fs =>
    (match anonIdent names fieldType with
     | some (ip, iname) => [⟨ip, ip + (iname.utf8ByteSize : Int), mkFR (pe iname)⟩]
     | none => []) ++ anonEvents pe fs

mutual
/-- All span tests a depth-first traversal of the node performs, in
traversal order: the identifier's own token; for a selector expression
the `Sel` token (for the whole expression) then the tests of `X` then the
`Sel` token again (for the bare identifier); the import specifier's whole
span; for a struct type the anonymous-field loop first and the field
list afterwards; for every other node only its children's tests. -/
def specEvents (pe : String → Except String Node) : Node → List TestEvent
  | .ident p s => [⟨p, p + (s.utf8ByteSize : Int), .node (.ident p s)⟩]
  | .sel x p s =>
    ⟨p, p + (s.utf8ByteSize : Int), .node (.sel x p s)⟩ ::
      (specEvents pe x ++ [⟨p, p + (s.utf8ByteSize : Int), .node (.ident p s)⟩])
  | .importSpec pos endPos lit => [⟨pos, endPos, .node (.importSpec pos endPos lit)⟩]
  | .star _ x => specEvents pe x
  | .structType _ _ fields => anonEvents pe fields ++ specFieldEvents pe fields
  | .other _ children => specListEvents pe children

/-- Span tests of a child list, left to right. -/
def specListEvents (pe : String → Except String Node) : NodeList → List TestEvent
  | .nil => []
  | .cons n ns => specEvents pe n ++ specListEvents pe ns

/-- Span tests of a struct's field list: per field the name identifiers,
the field type, then the remaining fields. -/
def specFieldEvents (pe : String → Except String Node) : FieldList → List TestEvent
  | .nil => []
  | .cons names fieldType fs =>
    identEvents names ++ specEvents pe fieldType ++ specFieldEvents pe fs
end

/-- Whether the offset lies in the event's span, inclusive on both ends. -/
def spanHit (sp : Int) (ev : TestEvent) : Bool :=
  found sp ev.startPos ev.endPos

/-- The spec-side locator outcome: the result of the first span test, in
traversal order, that contains the offset. -/
def firstHit (sp : Int) (evs : List TestEvent) : Option FoundResult :=
  (evs.find? (spanHit sp)).map TestEvent.result

/-- Left-biased choice on traversal outcomes (the shape of the
match-and-stop composition). -/
def orFR : Option FoundResult → Option FoundResult → Option FoundResult
  | some r, _ => some r
  | none, b => b

/-- A sample re-parse capability for concrete evaluations: every text
parses to an identifier at offset 0. -/
def peSample : String → Except String Node :=
  fun s => Except.ok (Node.ident 0 s)

/-- A sample parsed file: one identifier `abc` at bytes 4-7. -/
def fileSample : Node :=
  .other false (.cons (.ident 4 "abc") .nil)

/-- A sample rendered type. -/
def typSample : TypesType := ⟨some "int"⟩

/-- A sample declaring object. -/
def objSample : AstObject := ⟨.var, "x", none, ⟨"a.go", 3, 5⟩⟩

/-- A sample located expression node. -/
def nodeSample : Node := .ident 10 "x"

/-- A sample collaborator bundle whose local tier resolves every
expression to `objSample`. -/
def collabSample : Collab :=
  ⟨"syntax error",
   fun s => Except.ok (Node.ident 0 s),
   fun s => Except.ok (Node.ident 0 s),
   fun _ => some (objSample, typSample),
   fun _ => none,
   fun s => if s = "\"fmt\"" then some "fmt" else none,
   fun p => Except.ok ("/goroot/src/" ++ p),
   fun _ => "x"⟩

/-- A sample collaborator bundle whose local tier never resolves and
whose package tier resolves everything to `objSample`. -/
def collabSample2 : Collab :=
  ⟨"syntax error",
   fun s => Except.ok (Node.ident 0 s),
   fun s => Except.ok (Node.ident 0 s),
   fun _ => none,
   fun _ => some (objSample, typSample),
   fun s => if s = "\"fmt\"" then some "fmt" else none,
   fun p => Except.ok ("/goroot/src/" ++ p),
   fun _ => "x"⟩

/-- A sample flag state: offset query addressed, all flags off. -/
def appSample : Application := ⟨-1, false, false, false, false, "a.go", ""⟩

/-- A sample directory for the aggregation claims: one good sibling, one
sibling of another package, one sibling that fails to parse, one
non-source entry, plus the principal file itself. -/
def dirSample : DirFS :=
  ⟨true, true, ["a.go", "b.go", "c.go", "d.go", "notes.txt"],
   fun pf => if pf = "c.go" then "other" else "main",
   fun pf => pf ≠ "d.go"⟩

/-- A sample flag state carrying an expression query and a non-negative
offset at the same time. -/
def appExprSample : Application := ⟨3, false, false, false, false, "a.go", "x"⟩

/-- A sample flag state selecting JSON output. -/
def appJsonSample : Application := ⟨-1, false, false, false, true, "a.go", ""⟩

/-- A sample flag state with `-A` set and everything else off. -/
def appAllSample : Application := ⟨-1, false, false, true, false, "a.go", ""⟩

/-- A sample non-path output object with a position whose column is
zero. -/
def objOutSample : Object := .mk "x" .var "" ⟨"a.go", 3, 0⟩ [] none none

/-! ### Lemmas on the spec-side first-match semantics -/

theorem firstHit_nil (sp : Int) : firstHit sp [] = none := rfl

theorem firstHit_cons (sp : Int) (ev : TestEvent) (evs : List TestEvent) :
    firstHit sp (ev :: evs) =
      if spanHit sp ev then some ev.result else firstHit sp evs := by
  by_cases h : spanHit sp ev <;> simp [firstHit, List.find?_cons, h]

theorem firstHit_append (sp : Int) (a b : List TestEvent) :
    firstHit sp (a ++ b) = orFR (firstHit sp a) (firstHit sp b) := by
  induction a with
  | nil => simp [firstHit_nil, orFR]
  | cons ev evs ih =>
    by_cases h : spanHit sp ev <;> simp [firstHit_cons, h, ih, orFR]

theorem walkIdents_eq (sp : Int) :
    ∀ names, walkIdents sp names = firstHit sp (identEvents names)
  | [] => rfl
  | (p, s) :: rest => by
    by_cases h : found sp p (p + (s.utf8ByteSize : Int)) <;>
      simp [walkIdents, identEvents, firstHit_cons, spanHit, h, walkIdents_eq sp rest]

theorem anonEvents_eq (pe : String → Except String Node) (sp : Int) :
    ∀ fs : FieldList,
      firstHit sp (anonEvents pe fs) = (anonHit sp fs).map (fun iname => mkFR (pe iname))
  | .nil => rfl
  | .cons names fieldType fs => by
    have ih := anonEvents_eq pe sp fs
    cases h : anonIdent names fieldType with
    | none => simp [anonEvents, anonHit, h, ih]
    | some pr =>
      obtain ⟨ip, iname⟩ := pr
      by_cases hf : found sp ip (ip + (iname.utf8ByteSize : Int)) <;>
        simp [anonEvents, anonHit, h, hf, firstHit_cons, spanHit, ih]

mutual
theorem walkNode_eq (pe : String → Except String Node) (sp : Int) :
    ∀ n : Node, walkNode pe sp n = firstHit sp (specEvents pe n)
  | .ident p s => by
    by_cases h : found sp p (p + (s.utf8ByteSize : Int)) <;>
      simp [walkNode, specEvents, firstHit_cons, firstHit_nil, spanHit, h]
  | .sel x p s => by
    by_cases h : found sp p (p + (s.utf8ByteSize : Int))
    · simp [walkNode, specEvents, firstHit_cons, spanHit, h]
    · have ih := walkNode_eq pe sp x
      simp [walkNode, specEvents, firstHit_cons, firstHit_append, firstHit_nil,
        spanHit, h, ih]
      cases firstHit sp (specEvents pe x) <;> simp [orFR]
  | .importSpec pos endPos lit => by
    by_cases h : found sp pos endPos <;>
      simp [walkNode, specEvents, firstHit_cons, firstHit_nil, spanHit, h]
  | .star q x => by
    simpa [walkNode, specEvents] using walkNode_eq pe sp x
  | .structType pos endPos fields => by
    have ihf := walkFields_eq pe sp fields
    have iha := anonEvents_eq pe sp fields
    cases h : anonHit sp fields with
    | some iname => simp [walkNode, specEvents, firstHit_append, h, iha, orFR]
    | none => simp [walkNode, specEvents, firstHit_append, h, iha, orFR, ihf]
  | .other b children => by
    simpa [walkNode, specEvents] using walkList_eq pe sp children

theorem walkList_eq (pe : String → Except String Node) (sp : Int) :
    ∀ ns : NodeList, walkList pe sp ns = firstHit sp (specListEvents pe ns)
  | .nil => rfl
  | .cons n ns => by
    have ih1 := walkNode_eq pe sp n
    have ih2 := walkList_eq pe sp ns
    simp [walkList, specListEvents, firstHit_append, ih1, ih2]
    cases firstHit sp (specEvents pe n) <;> simp [orFR]

theorem walkFields_eq (pe : String → Except String Node) (sp : Int) :
    ∀ fs : FieldList, walkFields pe sp fs = firstHit sp (specFieldEvents pe fs)
  | .nil => rfl
  | .cons names fieldType fs => by
    have ih1 := walkNode_eq pe sp fieldType
    have ih2 := walkFields_eq pe sp fs
    have ih3 := walkIdents_eq sp names
    simp [walkFields, specFieldEvents, firstHit_append, ih1, ih2, ih3]
    cases firstHit sp (identEvents names) with
    | some r => simp [orFR]
    | none =>
      simp [orFR]
      cases firstHit sp (specEvents pe fieldType) <;> simp [orFR]
end

theorem mkFR_err (r : Except String Node) (e : String) :
    mkFR r = FoundResult.err e ↔ r = Except.error e := by
  cases r <;> simp [mkFR]

theorem identEvents_no_err (names : List (Int × String)) :
    ∀ ev ∈ identEvents names, ∀ e, ev.result ≠ FoundResult.err e := by
  induction names with
  | nil => simp [identEvents]
  | cons pr rest ih =>
    obtain ⟨p, s⟩ := pr
    intro ev hm e
    simp only [identEvents, List.mem_cons] at hm
    rcases hm with h | h
    · subst h; simp
    · exact ih ev h e

theorem anonEvents_err (pe : String → Except String Node) :
    ∀ fs : FieldList, ∀ ev ∈ anonEvents pe fs, ∀ e,
      ev.result = FoundResult.err e → ∃ s, pe s = Except.error e
  | .nil => by simp [anonEvents]
  | .cons names fieldType fs => by
    intro ev hm e hres
    have ih := anonEvents_err pe fs
    cases h : anonIdent names fieldType with
    | none =>
      simp only [anonEvents, h, List.nil_append] at hm
      exact ih ev hm e hres
    | some pr =>
      obtain ⟨ip, iname⟩ := pr
      simp only [anonEvents, h, List.cons_append, List.nil_append, List.mem_cons] at hm
      rcases hm with h2 | h2
      · subst h2
        exact ⟨iname, (mkFR_err _ _).mp hres⟩
      · exact ih ev h2 e hres

mutual
theorem specEvents_err (pe : String → Except String Node) :
    ∀ n : Node, ∀ ev ∈ specEvents pe n, ∀ e,
      ev.result = FoundResult.err e → ∃ s, pe s = Except.error e
  | .ident p s => by
    intro ev hm e hres
    simp [specEvents] at hm
    subst hm; simp at hres
  | .sel x p s => by
    intro ev hm e hres
    simp [specEvents] at hm
    rcases hm with h | h | h
    · subst h; simp at hres
    · exact specEvents_err pe x ev h e hres
    · subst h; simp at hres
  | .importSpec pos endPos lit => by
    intro ev hm e hres
    simp [specEvents] at hm
    subst hm; simp at hres
  | .star q x => by
    intro ev hm e hres
    simp only [specEvents] at hm
    exact specEvents_err pe x ev hm e hres
  | .structType pos endPos fields => by
    intro ev hm e hres
    simp only [specEvents, List.mem_append] at hm
    rcases hm with h | h
    · exact anonEvents_err pe fields ev h e hres
    · exact specFieldEvents_err pe fields ev h e hres
  | .other b children => by
    intro ev hm e hres
    simp only [specEvents] at hm
    exact specListEvents_err pe children ev hm e hres

theorem specListEvents_err (pe : String → Except String Node) :
    ∀ ns : NodeList, ∀ ev ∈ specListEvents pe ns, ∀ e,
      ev.result = FoundResult.err e → ∃ s, pe s = Except.error e
  | .nil => by simp [specListEvents]
  | .cons n ns => by
    intro ev hm e hres
    simp only [specListEvents, List.mem_append] at hm
    rcases hm with h | h
    · exact specEvents_err pe n ev h e hres
    · exact specListEvents_err pe ns ev h e hres

theorem specFieldEvents_err (pe : String → Except String Node) :
    ∀ fs : FieldList, ∀ ev ∈ specFieldEvents pe fs, ∀ e,
      ev.result = FoundResult.err e → ∃ s, pe s = Except.error e
  | .nil => by simp [specFieldEvents]
  | .cons names fieldType fs => by
    intro ev hm e hres
    simp only [specFieldEvents, List.mem_append] at hm
    rcases hm with (h | h) | h
    · exact absurd hres (identEvents_no_err names ev h e)
    · exact specEvents_err pe fieldType ev h e hres
    · exact specFieldEvents_err pe fs ev h e hres
end

/-- C2: for every parsed file and byte offset, `findIdentifier` tests
each visited node's span `[start, start + length]` against the offset
inclusively on both ends (`spanHit`/`found`), returns the result of the
first matching span test in depth-first traversal order (`specEvents`
lists the tests in traversal order; `firstHit` picks the first match, so
no sibling or descendant after the match contributes), and returns the
"no identifier found" error exactly when no tested span contains the
offset.  The hypothesis records that the expression re-parser never
produces that exact message (its errors are "cannot parse expression:
..." or "no identifier found in expression"). -/
theorem findIdentifier_first_match (pe : String → Except String Node) (f : Node) (sp : Int)
    (hpe : ∀ s e, pe s = Except.error e → e ≠ "no identifier found") :
    (findIdentifier pe f sp =
      match firstHit sp (specEvents pe f) with
      | some (FoundResult.node n) => Except.ok n
      | some (FoundResult.err e) => Except.error e
      | none => Except.error "no identifier found")
    ∧ (findIdentifier pe f sp = Except.error "no identifier found"
        ↔ ∀ ev ∈ specEvents pe f, found sp ev.startPos ev.endPos = false) := by
  have hw := walkNode_eq pe sp f
  have heq : findIdentifier pe f sp =
      match firstHit sp (specEvents pe f) with
      | some (FoundResult.node n) => Except.ok n
      | some (FoundResult.err e) => Except.error e
      | none => Except.error "no identifier found" := by
    cases hfh : firstHit sp (specEvents pe f) with
    | none => simp [findIdentifier, hw, hfh]
    | some r => cases r <;> simp [findIdentifier, hw, hfh]
  refine ⟨heq, ?_, ?_⟩
  · intro herr
    cases hfh : firstHit sp (specEvents pe f) with
    | none =>
      intro ev hev
      have h3 : ((specEvents pe f).find? (spanHit sp)).map TestEvent.result = none := hfh
      have hf : (specEvents pe f).find? (spanHit sp) = none :=
        Option.map_eq_none'.mp h3
      have h2 := List.find?_eq_none.mp hf ev hev
      simpa [spanHit] using h2
    | some r =>
      exfalso
      rw [heq, hfh] at herr
      cases r with
      | node n => simp at herr
      | err e =>
        simp only [Except.error.injEq] at herr
        obtain ⟨ev2, hfind, hres⟩ :
            ∃ ev2, (specEvents pe f).find? (spanHit sp) = some ev2 ∧
              ev2.result = FoundResult.err e := by
          cases hfind2 : (specEvents pe f).find? (spanHit sp) with
          | none => simp [firstHit, hfind2] at hfh
          | some ev2 =>
            refine ⟨ev2, rfl, ?_⟩
            simpa [firstHit, hfind2] using hfh
        have hmem := List.mem_of_find?_eq_some hfind
        obtain ⟨s, hs⟩ := specEvents_err pe f ev2 hmem e hres
        exact hpe s e hs herr
  · intro hall
    have hf : (specEvents pe f).find? (spanHit sp) = none :=
      List.find?_eq_none.mpr (fun ev hm => by simp [spanHit, hall ev hm])
    rw [heq]
    simp [firstHit, hf]

/-- Witness for C2 at a concrete file and offset: the re-parser is total
(so the side condition holds vacuously), the file holds one identifier
`abc` covering bytes 4-7, and locating offset 5 returns that identifier
node. -/
theorem findIdentifier_first_match_witness :
    (∀ s e, peSample s = Except.error e → e ≠ "no identifier found")
    ∧ findIdentifier peSample fileSample 5 = Except.ok (Node.ident 4 "abc") := by
  have hpe : ∀ s e, peSample s = Except.error e → e ≠ "no identifier found" := by
    intro s e h
    simp [peSample] at h
  refine ⟨hpe, ?_⟩
  have h := (findIdentifier_first_match peSample fileSample 5 hpe).1
  rw [h]
  rfl

/-- C3: for a selector expression `x.y` the visitor's span test uses only
the selector token's span — `found(Sel.NamePos, End())` where the
expression's `End()` is the `Sel` token's end `selPos + len(selName)` —
and a matching offset returns the whole selector-expression node, not the
bare identifier `y`; when the offset is outside that span the node itself
never matches and the outcome is that of walking the sub-expression `x`
(followed by the `Sel` identifier, whose identical span test can no
longer succeed). -/
theorem selector_span_sel_token (pe : String → Except String Node) (sp : Int)
    (x : Node) (p : Int) (s : String) :
    (found sp p (p + (s.utf8ByteSize : Int)) = true →
      walkNode pe sp (.sel x p s) = some (FoundResult.node (.sel x p s)))
    ∧ (found sp p (p + (s.utf8ByteSize : Int)) = false →
      walkNode pe sp (.sel x p s) = walkNode pe sp x) := by
  constructor
  · intro h
    simp [walkNode, h]
  · intro h
    simp [walkNode, h]
    cases walkNode pe sp x <;> simp

/-- Witness for C3, the spec's own example: `pkg.Name` with `pkg` at
bytes 10-13 and `Name` at bytes 14-18; locating offset 16 returns the
selector-expression node. -/
theorem selector_span_sel_token_witness :
    found 16 14 (14 + ("Name".utf8ByteSize : Int)) = true
    ∧ walkNode peSample 16 (.sel (.ident 10 "pkg") 14 "Name")
        = some (FoundResult.node (.sel (.ident 10 "pkg") 14 "Name")) :=
  ⟨by decide, (selector_span_sel_token peSample 16 (.ident 10 "pkg") 14 "Name").1 (by decide)⟩

/-- C4: when the anonymous-field loop of a struct type finds an embedded
field whose (possibly pointer-stripped) named-type identifier span
contains the offset (`anonHit`), the locator does not return that
identifier node: the traversal result is the re-parse `pe` of the
identifier's text, and `findIdentifier` returns exactly the re-parsed
expression node or the re-parse error.  Since the loop runs when the
`StructType` node is visited — before the traversal descends into the
field list where the generic identifier rule would test the same span —
the override decides the result whatever the fields contain. -/
theorem struct_anon_field_override (pe : String → Except String Node) (sp pos endPos : Int)
    (fields : FieldList) (iname : String)
    (h : anonHit sp fields = some iname) :
    walkNode pe sp (.structType pos endPos fields) = some (mkFR (pe iname))
    ∧ findIdentifier pe (.structType pos endPos fields) sp = pe iname := by
  have h1 : walkNode pe sp (.structType pos endPos fields) = some (mkFR (pe iname)) := by
    simp [walkNode, h]
  refine ⟨h1, ?_⟩
  simp only [findIdentifier, h1]
  cases pe iname <;> simp [mkFR]

/-- Witness for C4: a struct whose single field is the embedded
`*Base` (identifier at bytes 21-25); at offset 23 the locator answers
with the re-parse of "Base", not with the identifier node at byte 21. -/
theorem struct_anon_field_override_witness :
    anonHit 23 (FieldList.cons [] (Node.star 20 (Node.ident 21 "Base")) FieldList.nil)
      = some "Base"
    ∧ findIdentifier peSample
        (Node.structType 15 30
          (FieldList.cons [] (Node.star 20 (Node.ident 21 "Base")) FieldList.nil)) 23
      = Except.ok (Node.ident 0 "Base") := by
  refine ⟨rfl, ?_⟩
  have h := (struct_anon_field_override peSample 23 15 30
    (FieldList.cons [] (Node.star 20 (Node.ident 21 "Base")) FieldList.nil) "Base" rfl).2
  rw [h]
  rfl

/-- C1: for every located expression node, when explicit type information
was not requested the resolver first tries the local tier, and a non-nil
declaring object there is returned at once — an answer independent of
every package-tier collaborator, so package aggregation is not consulted
and no later step can turn the success into a failure; the package tier
(`resolveExprTier2`) is entered exactly when the type flag is set or the
local tier yields `none`; and when both tiers yield `none` the result is
the "no declaration found" error carrying the rendering of the
unresolved expression (for an offset query the located node itself, for
an expression query the re-parsed expression). -/
theorem two_tier_resolution (c : Collab) (app : Application) (e : Node)
    (he : e.isExprKind = true) :
    (∀ obj typ, app.type = false → c.exprTypeLocal e = some (obj, typ) →
      resolveNode c app e = Except.ok (some obj, typ)
      ∧ ∀ rpm etm,
          resolveNode { c with rawParseMerged := rpm, exprTypeMerged := etm } app e
            = Except.ok (some obj, typ))
    ∧ ((app.type = true ∨ c.exprTypeLocal e = none) →
        resolveNode c app e = resolveExprTier2 c app e)
    ∧ (app.type = false → c.exprTypeLocal e = none → app.expr = "" →
        c.exprTypeMerged e = none →
        resolveNode c app e = Except.error ("no declaration found for " ++ c.pretty e))
    ∧ (∀ e2, app.expr ≠ "" → (app.type = true ∨ c.exprTypeLocal e = none) →
        parseExpr c.rawParseMerged app.expr = Except.ok e2 →
        c.exprTypeMerged e2 = none →
        resolveNode c app e = Except.error ("no declaration found for " ++ c.pretty e2)) := by
  refine ⟨?_, ?_, ?_, ?_⟩
  · intro obj typ ht hl
    constructor
    · simp [resolveNode, he, ht, hl]
    · intro rpm etm
      simp [resolveNode, he, ht, hl]
  · intro h
    rcases h with ht | hl
    · simp [resolveNode, he, ht]
    · by_cases ht : app.type = true
      · simp [resolveNode, he, ht]
      · simp at ht
        simp [resolveNode, he, ht, hl]
  · intro ht hl hx hm
    simp [resolveNode, resolveExprTier2, he, ht, hl, hx, hm]
  · intro e2 hx h2 hp hm
    have htier : resolveNode c app e = resolveExprTier2 c app e := by
      rcases h2 with ht | hl
      · simp [resolveNode, he, ht]
      · by_cases ht : app.type = true
        · simp [resolveNode, he, ht]
        · simp at ht
          simp [resolveNode, he, ht, hl]
    rw [htier]
    simp [resolveExprTier2, hx, hp, hm]

/-- Witness for C1: with the type flag off and a local tier that resolves
the sample identifier, resolution returns that object immediately. -/
theorem two_tier_resolution_witness :
    (nodeSample.isExprKind = true ∧ appSample.type = false
      ∧ collabSample.exprTypeLocal nodeSample = some (objSample, typSample))
    ∧ resolveNode collabSample appSample nodeSample
        = Except.ok (some objSample, typSample) :=
  ⟨⟨rfl, rfl, rfl⟩,
   ((two_tier_resolution collabSample appSample nodeSample rfl).1 objSample typSample
      rfl rfl).1⟩

/-- C10: after `prepare`, `All` implies `Members` and `Members` implies
`Type`; hence a member-printing request makes the resolver skip the local
tier — on any expression node it goes straight to the package tier,
because the local tier is guarded by `!app.Type`. -/
theorem prepare_flag_implications (app : Application) :
    (app.prepare.all = true → app.prepare.members = true)
    ∧ (app.prepare.members = true → app.prepare.type = true)
    ∧ (∀ c e, e.isExprKind = true → app.prepare.members = true →
        resolveNode c app.prepare e = resolveExprTier2 c app.prepare e) := by
  have hm : app.prepare.members = (app.members || app.all) := rfl
  have ht : app.prepare.type = (app.type || (app.members || app.all)) := rfl
  have ha : app.prepare.all = app.all := rfl
  refine ⟨?_, ?_, ?_⟩
  · intro h
    rw [ha] at h
    simp [hm, h]
  · intro h
    rw [hm] at h
    simp [ht, h]
  · intro c e hexpr hmem
    have htype : app.prepare.type = true := by
      rw [hm] at hmem
      simp [ht, hmem]
    simp [resolveNode, hexpr, htype]

/-- Witness for C10 with only `-A` set: after `prepare` both `members`
and `type` are on and the resolver equals its package tier. -/
theorem prepare_flag_implications_witness :
    (appAllSample.prepare.all = true ∧ appAllSample.prepare.members = true)
    ∧ appAllSample.prepare.type = true
    ∧ resolveNode collabSample appAllSample.prepare nodeSample
        = resolveExprTier2 collabSample appAllSample.prepare nodeSample := by
  have h := prepare_flag_implications appAllSample
  have h1 : appAllSample.prepare.all = true := rfl
  have h2 := h.1 h1
  exact ⟨⟨h1, h2⟩, h.2.1 h2, h.2.2 collabSample nodeSample rfl h2⟩

/-- C5: resolving a located import specifier unquotes the path literal,
failing with the invalid-string-literal error exactly when unquoting
fails; on success it returns the object `(Kind: Pkg, Data: directory)`
with the zero position inside and the zero `types.Type` — the same
answer under any flag state — and printing the adapted path-kind result
emits only the raw directory string and a newline. -/
theorem import_spec_resolution (c : Collab) (app app2 : Application)
    (pos endPos : Int) (lit : String) :
    (c.unquote lit = none →
      resolveNode c app (.importSpec pos endPos lit)
        = Except.error ("invalid string literal " ++ goQuote lit ++ " in ast.ImportSpec"))
    ∧ (∀ path dir, c.unquote lit = some path → c.findDir path = Except.ok dir →
        resolveNode c app (.importSpec pos endPos lit)
          = Except.ok (some ⟨AstKind.pkg, "", some dir, ⟨"", 0, 0⟩⟩, TypesType.zero)
        ∧ resolveNode c app2 (.importSpec pos endPos lit)
            = resolveNode c app (.importSpec pos endPos lit)
        ∧ printApp app
            (adaptResult (some ⟨AstKind.pkg, "", some dir, ⟨"", 0, 0⟩⟩) TypesType.zero)
            = dir ++ "\n") := by
  constructor
  · intro h
    simp [resolveNode, Node.isExprKind, importPath, h]
  · intro path dir hu hd
    refine ⟨?_, ?_, ?_⟩
    · simp [resolveNode, Node.isExprKind, importPath, hu, hd]
    · simp [resolveNode, Node.isExprKind, importPath, hu, hd]
    · simp [adaptResult, printApp, Object.kind, Object.value?, fmtV]

/-- Witness for C5 on the literal `"fmt"`: unquoting succeeds, the
locator finds the package directory, resolution returns the path-kind
object, and printing it gives the directory and a newline. -/
theorem import_spec_resolution_witness :
    (collabSample.unquote "\"fmt\"" = some "fmt"
      ∧ collabSample.findDir "fmt" = Except.ok "/goroot/src/fmt")
    ∧ resolveNode collabSample appSample (.importSpec 0 5 "\"fmt\"")
        = Except.ok (some ⟨AstKind.pkg, "", some "/goroot/src/fmt", ⟨"", 0, 0⟩⟩,
            TypesType.zero)
    ∧ printApp appSample
        (adaptResult (some ⟨AstKind.pkg, "", some "/goroot/src/fmt", ⟨"", 0, 0⟩⟩)
          TypesType.zero)
        = "/goroot/src/fmt" ++ "\n" := by
  have h := (import_spec_resolution collabSample appSample appSample 0 5 "\"fmt\"").2
    "fmt" "/goroot/src/fmt" rfl rfl
  exact ⟨⟨rfl, rfl⟩, h.1, h.2.2⟩

/-- C7: a non-empty query expression is resolved by parsing it against
the principal file's scope even when a non-negative offset is also
supplied; the offset drives `findIdentifier` only when the expression is
empty; and an empty expression with a negative offset fails with
"no expression or offset specified". -/
theorem query_dispatch_precedence (c : Collab) (app : Application) (f : Node) (sp : Int) :
    (app.expr ≠ "" →
      oldGodef c app (some f) sp =
        match parseExpr c.rawParseLocal app.expr with
        | .error err => Except.error err
        | .ok o => resolveNode c app o)
    ∧ (app.expr = "" → sp ≥ 0 →
      oldGodef c app (some f) sp =
        match findIdentifier (parseExpr c.rawParseLocal) f sp with
        | .error err => Except.error err
        | .ok o => resolveNode c app o)
    ∧ (app.expr = "" → sp < 0 →
      oldGodef c app (some f) sp = Except.error "no expression or offset specified") := by
  refine ⟨?_, ?_, ?_⟩
  · intro h
    simp only [oldGodef, h, if_true, ne_eq, not_false_eq_true, if_pos]
  · intro h1 h2
    simp [oldGodef, h1, h2]
  · intro h1 h2
    have h3 : ¬ sp ≥ 0 := by omega
    simp [oldGodef, h1, h3]

/-- Witness for C7: with expression "x" and offset 3 both present, the
expression wins. -/
theorem query_dispatch_precedence_witness :
    (appExprSample.expr ≠ "")
    ∧ oldGodef collabSample appExprSample (some fileSample) 3
        = match parseExpr collabSample.rawParseLocal appExprSample.expr with
          | .error err => Except.error err
          | .ok o => resolveNode collabSample appExprSample o := by
  have hne : appExprSample.expr ≠ "" := by simp [appExprSample]
  exact ⟨hne, (query_dispatch_precedence collabSample appExprSample fileSample 3).1 hne⟩

theorem scanSiblings_eq_filter (fs : DirFS) (f pkgNm : String) :
    ∀ l : List String,
      scanSiblings fs f pkgNm l
        = l.filter (fun pf =>
            hasSuffix pf ".go" && decide (pf ≠ f) && decide (fs.pkgNameOf pf = pkgNm)
              && fs.parseOk pf)
  | [] => rfl
  | pf :: l => by
    have ih := scanSiblings_eq_filter fs f pkgNm l
    by_cases hgo : hasSuffix pf ".go" = true
    · by_cases hf : pf = f
      · simp [scanSiblings, List.filter_cons, hgo, hf, ih]
      · by_cases hnm : fs.pkgNameOf pf = pkgNm
        · by_cases hp : fs.parseOk pf = true
          · simp [scanSiblings, List.filter_cons, hgo, hf, hnm, hp, ih]
          · simp [scanSiblings, List.filter_cons, hgo, hf, hnm, hp, ih]
        · simp [scanSiblings, List.filter_cons, hgo, hf, hnm, ih]
    · simp only [Bool.not_eq_true] at hgo
      simp [scanSiblings, List.filter_cons, hgo, ih]

/-- C6: with the directory readable, aggregation keeps, in order, exactly
the sibling entries ending in ".go" that are not the principal file,
implement the principal file's package name and fully parse — a sibling
skipped for a different package-clause name or a failed parse is dropped
silently and never prevents later siblings from being collected (the
result is a filter over the whole listing) — and when no sibling
survives, so the package still holds only the principal file, the result
is the `errNoPkgFiles` error rather than a package. -/
theorem parseLocalPackage_aggregation (fs : DirFS) (filename f pkgNm : String)
    (h1 : fs.openOk = true) (h2 : fs.readOk = true) :
    (parseLocalPackage fs filename f pkgNm =
      (if fs.names.filter (fun pf =>
            hasSuffix pf ".go" && decide (pf ≠ f) && decide (fs.pkgNameOf pf = pkgNm)
              && fs.parseOk pf) = []
       then Except.error errNoPkgFiles
       else Except.ok (filename :: fs.names.filter (fun pf =>
            hasSuffix pf ".go" && decide (pf ≠ f) && decide (fs.pkgNameOf pf = pkgNm)
              && fs.parseOk pf))))
    ∧ (∀ pf ∈ fs.names,
        hasSuffix pf ".go" = true → pf ≠ f → fs.pkgNameOf pf = pkgNm →
        fs.parseOk pf = true →
        ∃ l, parseLocalPackage fs filename f pkgNm = Except.ok l ∧ pf ∈ l) := by
  have hscan := scanSiblings_eq_filter fs f pkgNm fs.names
  have hmain : parseLocalPackage fs filename f pkgNm =
      (if fs.names.filter (fun pf =>
            hasSuffix pf ".go" && decide (pf ≠ f) && decide (fs.pkgNameOf pf = pkgNm)
              && fs.parseOk pf) = []
       then Except.error errNoPkgFiles
       else Except.ok (filename :: fs.names.filter (fun pf =>
            hasSuffix pf ".go" && decide (pf ≠ f) && decide (fs.pkgNameOf pf = pkgNm)
              && fs.parseOk pf))) := by
    unfold parseLocalPackage
    rw [if_neg (by simp [h1]), if_neg (by simp [h2]), hscan]
    by_cases hk : fs.names.filter (fun pf =>
        hasSuffix pf ".go" && decide (pf ≠ f) && decide (fs.pkgNameOf pf = pkgNm)
          && fs.parseOk pf) = []
    · rw [if_pos (by rw [hk]; rfl), if_pos hk]
    · have hlen : ¬ (filename :: fs.names.filter (fun pf =>
          hasSuffix pf ".go" && decide (pf ≠ f) && decide (fs.pkgNameOf pf = pkgNm)
            && fs.parseOk pf)).length = 1 := by
        intro hcontra
        simp only [List.length_cons, Nat.add_eq_right] at hcontra
        exact hk (List.length_eq_zero.mp hcontra)
      rw [if_neg hlen, if_neg hk]
  refine ⟨hmain, ?_⟩
  intro pf hm hgo hf hnm hp
  have hkeep : pf ∈ fs.names.filter (fun pf =>
      hasSuffix pf ".go" && decide (pf ≠ f) && decide (fs.pkgNameOf pf = pkgNm)
        && fs.parseOk pf) :=
    List.mem_filter.mpr ⟨hm, by simp [hgo, hf, hnm, hp]⟩
  have hne := List.ne_nil_of_mem hkeep
  refine ⟨filename :: fs.names.filter (fun pf =>
      hasSuffix pf ".go" && decide (pf ≠ f) && decide (fs.pkgNameOf pf = pkgNm)
        && fs.parseOk pf), ?_, ?_⟩
  · rw [hmain, if_neg hne]
  · exact List.mem_cons_of_mem filename hkeep

/-- Witness for C6: in `dirSample` the sibling `b.go` survives while
`c.go` (other package), `d.go` (broken parse) and `notes.txt` (not a
source file) are skipped silently, so aggregation succeeds with exactly
the principal file and `b.go`. -/
theorem parseLocalPackage_aggregation_witness :
    (dirSample.openOk = true ∧ dirSample.readOk = true)
    ∧ parseLocalPackage dirSample "/pkg/a.go" "a.go" "main"
        = Except.ok ["/pkg/a.go", "b.go"] := by
  refine ⟨⟨rfl, rfl⟩, ?_⟩
  have h := (parseLocalPackage_aggregation dirSample "/pkg/a.go" "a.go" "main" rfl rfl).1
  rw [h]
  rfl

/-- C8: for a non-path-kind result in JSON mode the printed output is
exactly the serialization of the `Position` record — field order
filename, line, column, each omitted when it is the zero value — followed
by a newline; the right-hand side mentions no type or member flag, so
those flags cannot affect structured output. -/
theorem json_print_position_only (app : Application) (obj : Object)
    (hk : obj.kind ≠ Kind.path) (hj : app.json = true) :
    printApp app obj =
      "\x7b" ++ String.intercalate ","
        ((if obj.position.filename = "" then []
          else ["\"filename\":" ++ jsonQuote obj.position.filename]) ++
         (if obj.position.line = 0 then [] else ["\"line\":" ++ toString obj.position.line]) ++
         (if obj.position.column = 0 then []
          else ["\"column\":" ++ toString obj.position.column]))
        ++ "\x7d" ++ "\n" := by
  simp [printApp, hk, hj, Position.json, String.append_assoc]

/-- Witness for C8: a var-kind object at `a.go:3` with zero column under
the JSON flag prints the two-field record and nothing else. -/
theorem json_print_position_only_witness :
    (objOutSample.kind ≠ Kind.path ∧ appJsonSample.json = true)
    ∧ printApp appJsonSample objOutSample = "\x7b\"filename\":\"a.go\",\"line\":3\x7d\n" := by
  have hk : objOutSample.kind ≠ Kind.path := by
    simp [objOutSample, Object.kind]
  refine ⟨⟨hk, rfl⟩, ?_⟩
  have h := json_print_position_only appJsonSample objOutSample hk rfl
  rw [h]
  rfl

/-- C9: the resolve-then-print pipeline is deterministic — two runs on
identical file contents (parse outcome), offset, flags and collaborators
produce byte-identical formatted output.  The embedding is the
sequential realization of the locator's single-message search, which the
code's one-producer one-read channel makes equivalent. -/
theorem pipeline_deterministic (c1 c2 : Collab) (appA appB : Application)
    (p1 p2 : Option Node) (sp1 sp2 : Int)
    (h : c1 = c2 ∧ appA = appB ∧ p1 = p2 ∧ sp1 = sp2) :
    runPipeline c1 appA p1 sp1 = runPipeline c2 appB p2 sp2 := by
  obtain ⟨h1, h2, h3, h4⟩ := h
  subst h1
  subst h2
  subst h3
  subst h4
  rfl

/-- Witness for C9 at a concrete input. -/
theorem pipeline_deterministic_witness :
    (collabSample = collabSample ∧ appSample = appSample
      ∧ (some fileSample : Option Node) = some fileSample ∧ (5 : Int) = 5)
    ∧ runPipeline collabSample appSample (some fileSample) 5
        = runPipeline collabSample appSample (some fileSample) 5 :=
  ⟨⟨rfl, rfl, rfl, rfl⟩,
   pipeline_deterministic collabSample collabSample appSample appSample
     (some fileSample) (some fileSample) 5 5 ⟨rfl, rfl, rfl, rfl⟩⟩

end Godef
